import Mathlib

/-!
Verification of the portfolio interaction script (src/script.js).

Each section embeds one component of the script as executable Lean
definitions, translated directly from the JavaScript source, and proves
the claimed properties about it.  DOM state is modelled explicitly:
class membership and inline styles become record fields, timer callbacks
become schedules of (time, mutation) pairs, and IntersectionObserver
callbacks become step functions over an explicit observed/trigger state.
-/

namespace Portfolio

/- ### Skill progress bars (initSkillBars, script.js lines 206-224)

The observer callback reads the data-width attribute; a missing
attribute is modelled as none and JavaScript coerces the empty string to
false, so the expression dataWidth or "80" yields "80" in both cases.
Then "%" is appended and the result is written to the width style. -/

/-- Width style written by the skill-bar observer callback:
dataset.width or the default "80", with "%" appended. -/
def skillWidth (dataWidth : Option String) : String :=
  (match dataWidth with
   | none => "80"
   | some w => if w = "" then "80" else w) ++ "%"

/- ### Counter parsing (initCounters, script.js lines 387-414)

The callback strips non-digits from the text, parses the remainder with
parseInt (NaN on the empty string, modelled as none), keeps the
non-digit characters as a suffix, and returns early when the parse is
falsy (NaN or 0) -- before starting the interval timer and before
unobserving the element. -/

/-- Digits of the element text, in order: text.replace stripping every
non-digit. -/
def counterDigits (text : String) : List Char :=
  text.data.filter Char.isDigit

/-- parseInt applied to the digit-only string: none models NaN (empty
string), otherwise the decimal value. -/
def counterParse (text : String) : Option Nat :=
  let ds := counterDigits text
  if ds.isEmpty then none
  else some (ds.foldl (fun n c => n * 10 + (c.toNat - 48)) 0)

/-- Non-digit suffix kept by the callback: text.replace stripping every
digit. -/
def counterSuffix (text : String) : String :=
  ⟨text.data.filter (fun c => !c.isDigit)⟩

/-- Per-tick step size: Math.ceil(end / 35) on a natural target. -/
def counterStepSize (endVal : Nat) : Nat := (endVal + 34) / 35

/-- Value displayed after k interval ticks:
start = Math.min(start + step, end), starting from 1. -/
def counterIter (endVal : Nat) : Nat → Nat
  | 0 => 0
  | k + 1 => min (counterIter endVal k + counterStepSize endVal) endVal

/-- Text displayed after k interval ticks: the capped value with the
non-digit suffix appended. -/
def counterDisplay (endVal : Nat) (suffix : String) (k : Nat) : String :=
  toString (counterIter endVal k) ++ suffix

/-- Time of the k-th interval tick, in ms after the callback ran
(setInterval period 38). -/
def counterTickTime (k : Nat) : Nat := k * 38

/-- Immediate outcome of one run of the counter observer callback on an
element whose text is the given string. -/
structure CounterOutcome where
  timerStarted : Bool
  unobserved : Bool
  finalText : String
deriving DecidableEq, Repr

/-- The counter observer callback body for an intersecting entry:
parse the target; on a falsy parse return before starting the timer and
before unobserve, leaving the text unchanged; otherwise run the
animation to completion and unobserve. -/
def counterCallback (text : String) : CounterOutcome :=
  match counterParse text with
  | none => { timerStarted := false, unobserved := false, finalText := text }
  | some endVal =>
    if endVal = 0 then
      { timerStarted := false, unobserved := false, finalText := text }
    else
      { timerStarted := true, unobserved := true,
        finalText := toString endVal ++ counterSuffix text }

/- ### Observer single-fire model (initReveal lines 178-200,
initSkillBars lines 206-224, initCounters lines 387-414)

Each observer is modelled per element: the state records whether the
element is still observed and how many times its effect was applied.
An event is one delivery of an intersection entry for the element,
carrying its isIntersecting flag; entries are only delivered while the
element is observed. -/

/-- Per-element observer state: still observed, and number of times the
visual effect has been applied. -/
structure ObsState where
  observed : Bool
  triggers : Nat
deriving DecidableEq, Repr

/-- Initial observer state: observe(el) was called, no effect yet. -/
def obsInit : ObsState := { observed := true, triggers := 0 }

/-- Callback step for the reveal and skill-bar observers: on an
intersecting entry apply the effect and unobserve, otherwise do
nothing. -/
def singleFireStep (s : ObsState) (isIntersecting : Bool) : ObsState :=
  if isIntersecting && s.observed then
    { observed := false, triggers := s.triggers + 1 }
  else s

/-- Run the reveal/skill-bar observer over a sequence of entries. -/
def singleFireRun (events : List Bool) : ObsState :=
  events.foldl singleFireStep obsInit

/-- Callback step for the counter observer: on an intersecting entry,
return early (no effect, still observed) when the parsed target is
falsy, otherwise apply the effect and unobserve. -/
def counterObsStep (endVal : Nat) (s : ObsState) (isIntersecting : Bool) :
    ObsState :=
  if isIntersecting && s.observed then
    if endVal = 0 then s
    else { observed := false, triggers := s.triggers + 1 }
  else s

/-- Run the counter observer over a sequence of entries. -/
def counterObsRun (endVal : Nat) (events : List Bool) : ObsState :=
  events.foldl (counterObsStep endVal) obsInit

/- ### Navbar active-link tracking (updateActiveNavLink, script.js
lines 107-123)

Sections are the (id, offsetTop) pairs of section[id] elements in
document order; nav links are the href attributes of .nav-link
elements.  The handler computes scrollY + innerHeight * 0.3, scans the
sections keeping the id of every one whose top offset is at most that
position (so the last qualifying id wins, starting from the empty
string), then sets the "active" class on exactly the links whose href
equals "#" ++ that id.  Offsets and scroll positions are modelled as
rationals. -/

/-- Scroll position against which section tops are compared:
scrollY + innerHeight * 0.3. -/
def navScrollPos (scrollY innerHeight : Rat) : Rat :=
  scrollY + innerHeight * (3 / 10)

/-- The current variable after the section scan: starts as the empty
string and is overwritten by every section whose top offset is at most
the scroll position. -/
def currentSectionId (sections : List (String × Rat)) (scrollPos : Rat) :
    String :=
  sections.foldl (fun cur sec => if sec.2 ≤ scrollPos then sec.1 else cur) ""

/-- Per-link outcome of the scan: true exactly when the link keeps the
"active" class, i.e. its href equals "#" ++ current. -/
def activeFlags (sections : List (String × Rat)) (navLinks : List String)
    (scrollY innerHeight : Rat) : List Bool :=
  navLinks.map
    (fun href => href == "#" ++ currentSectionId sections
      (navScrollPos scrollY innerHeight))

/-- The id of the last section, in document order, whose top offset is
at most the scroll position; none when no section qualifies.  This is
the specification-side description of which section is active. -/
def lastQualifyingId (p : Rat) : List (String × Rat) → Option String
  | [] => none
  | sec :: rest =>
    match lastQualifyingId p rest with
    | some s => some s
    | none => if sec.2 ≤ p then some sec.1 else none

/- ### Debounce (script.js lines 22-28)

The wrapper keeps one pending timer.  Each invocation calls
clearTimeout on it and schedules fn with the current arguments delay ms
later.  A run is modelled by the list of invocations (time, args) in
increasing time order; a scheduled timer actually fires when no later
invocation cancels it first, i.e. when the next invocation is not
strictly earlier than its deadline. -/

/-- Executions of fn produced by a sequence of invocations of the
debounce wrapper: the timer set at time t fires at t + delay with the
arguments of that invocation unless the next invocation arrives before
t + delay and cancels it. -/
def debounceFires {α : Type} (delay : Nat) : List (Nat × α) → List (Nat × α)
  | [] => []
  | [(t, a)] => [(t + delay, a)]
  | (t, a) :: (t2, a2) :: rest =>
    if t2 < t + delay then debounceFires delay ((t2, a2) :: rest)
    else (t + delay, a) :: debounceFires delay ((t2, a2) :: rest)

/-- All consecutive invocations are less than delay apart. -/
def gapsWithin {α : Type} (delay : Nat) : List (Nat × α) → Bool
  | [] => true
  | [_] => true
  | (t, _) :: (t2, a2) :: rest =>
    decide (t2 < t + delay) && gapsWithin delay ((t2, a2) :: rest)

/- ### Contact form validation (initContactForm, script.js lines 249-296)

The submit handler first walks all [required] fields: a field whose
trimmed value is empty makes the submission invalid and gets its border
marked.  If every required field is filled and the email element exists
but fails the regex test, the email field is marked and focused.
Otherwise the simulated send starts. -/

/-- The ECMAScript whitespace code points: WhiteSpace (tab, vertical
tab, form feed, space, no-break space, zero width no-break space, and
the Zs space separators U+1680, U+2000..U+200A, U+202F, U+205F, U+3000)
together with the LineTerminators (LF, CR, LS, PS).  This is the set
removed by String.prototype.trim and matched by the regex class
backslash-s. -/
def jsWhitespaceChar (c : Char) : Bool :=
  c = '\t' || c = '\n' || c = (Char.ofNat 0xb) || c = (Char.ofNat 0xc) ||
    c = '\r' || c = ' ' || c = (Char.ofNat 0xa0) || c = (Char.ofNat 0x1680) ||
    (0x2000 ≤ c.toNat && c.toNat ≤ 0x200a) ||
    c = (Char.ofNat 0x2028) || c = (Char.ofNat 0x2029) ||
    c = (Char.ofNat 0x202f) || c = (Char.ofNat 0x205f) ||
    c = (Char.ofNat 0x3000) || c = (Char.ofNat 0xfeff)

/-- String.prototype.trim: remove ECMAScript whitespace from both ends
of the string. -/
def jsTrim (s : String) : String :=
  ⟨((s.data.dropWhile jsWhitespaceChar).reverse.dropWhile
      jsWhitespaceChar).reverse⟩

/-- Whitespace for the regex class backslash-s: the ECMAScript
whitespace set. -/
def isRegexSpace (c : Char) : Bool :=
  jsWhitespaceChar c

/-- Character admitted by the regex class excluding whitespace and the
at sign. -/
def emailAtomChar (c : Char) : Bool :=
  !isRegexSpace c && c ≠ '@'

/-- Split a character list at its first at sign, returning the parts
before and after it. -/
def splitAtSign : List Char → Option (List Char × List Char)
  | [] => none
  | c :: rest =>
    if c = '@' then some ([], rest)
    else
      match splitAtSign rest with
      | none => none
      | some (l, r) => some (c :: l, r)

/-- The test of the anchored regex for local@domain.tld: one or more
non-space non-at characters, an at sign, one or more such characters, a
dot, one or more such characters.  Since neither side may contain an at
sign, the separator is the first at sign; the domain part matches
exactly when all its characters are admitted and some dot occurs
neither first nor last in it. -/
def emailRxTest (s : String) : Bool :=
  match splitAtSign s.data with
  | none => false
  | some (localPart, domainPart) =>
    !localPart.isEmpty && localPart.all emailAtomChar &&
      domainPart.all emailAtomChar &&
      ((domainPart.drop 1).dropLast.contains '.')

/-- Input to one submission attempt: the values of the [required]
fields, whether the element with id email exists, and its value. -/
structure ContactInput where
  requiredVals : List String
  emailPresent : Bool
  emailVal : String

/-- Immediate outcome of the submit handler: whether the simulated send
started, which required fields got an invalid border, and whether the
email field was marked and focused. -/
structure ContactOutcome where
  sendStarted : Bool
  requiredMarked : List Bool
  emailMarked : Bool
  emailFocused : Bool
deriving DecidableEq, Repr

/-- The submit handler body of initContactForm up to the start of the
simulated send.  The required loop both records the per-field marks and
computes validity; a field is marked exactly when its trimmed value is
empty. -/
def submitHandler (inp : ContactInput) : ContactOutcome :=
  if !(inp.requiredVals.all (fun v => !decide (jsTrim v = ""))) then
    { sendStarted := false,
      requiredMarked := inp.requiredVals.map (fun v => decide (jsTrim v = "")),
      emailMarked := false, emailFocused := false }
  else if inp.emailPresent && !emailRxTest inp.emailVal then
    { sendStarted := false,
      requiredMarked := inp.requiredVals.map (fun v => decide (jsTrim v = "")),
      emailMarked := true, emailFocused := true }
  else
    { sendStarted := true,
      requiredMarked := inp.requiredVals.map (fun v => decide (jsTrim v = "")),
      emailMarked := false, emailFocused := false }

/- ### Simulated send timeline (initContactForm, script.js lines 278-295)

On a fully valid submission at time t0 the handler immediately disables
the button and writes the sending label, schedules one timeout 1800 ms
later that resets the form, restores the button and shows the success
indicator, and that timeout schedules a second one 5000 ms after it
which hides the indicator again. -/

/-- Button and success-indicator state touched by the simulated send. -/
structure SendState where
  btnDisabled : Bool
  btnText : String
  successShow : Bool
  formWasReset : Bool
deriving DecidableEq, Repr

/-- The three mutations of the simulated send: the synchronous part of
the submit handler, the 1800 ms timeout body, and the nested 5000 ms
timeout body. -/
inductive SendMut
  | disableSending
  | resetAndShow
  | hideSuccess
deriving DecidableEq, Repr

/-- Apply one mutation, exactly as the corresponding code block writes
the DOM. -/
def applySendMut (s : SendState) : SendMut → SendState
  | .disableSending => { s with btnDisabled := true, btnText := "Sending…" }
  | .resetAndShow =>
    { btnDisabled := false, btnText := "Send Message",
      successShow := true, formWasReset := true }
  | .hideSuccess => { s with successShow := false }

/-- Schedule created by a valid submission at time t0: the synchronous
mutation now, the reset 1800 ms later, the hide 5000 ms after that. -/
def sendSchedule (t0 : Nat) : List (Nat × SendMut) :=
  [(t0, .disableSending), (t0 + 1800, .resetAndShow),
    (t0 + 1800 + 5000, .hideSuccess)]

/-- State at time t: all mutations whose firing time has passed,
applied in schedule order to the state at submission. -/
def sendStateAt (t0 : Nat) (init : SendState) (t : Nat) : SendState :=
  ((sendSchedule t0).filter (fun m => decide (m.1 ≤ t))).foldl
    (fun s m => applySendMut s m.2) init

/- ### Typing effect (initTypingEffect, script.js lines 311-353)

The tick function reads the current word, writes a slice of it to the
element and either schedules the next tick (95 ms while typing, 55 ms
while deleting) or, at the full word, schedules a 2000 ms timeout that
switches to deleting and runs tick immediately; on deleting down to
zero characters it switches back to typing and advances the word index
modulo the list length, with the next tick 95 ms later. -/

/-- Mutable state of the typing effect between ticks. -/
structure TypingState where
  wordIdx : Nat
  charIdx : Nat
  deleting : Bool
deriving DecidableEq, Repr

/-- Output of one tick: the text written to the element, the state left
for the next tick, and the delay until the next display change. -/
structure TickOut where
  display : String
  next : TypingState
  delay : Nat
deriving DecidableEq, Repr

/-- One tick of the typing effect.  At the full word the 2000 ms pause
timeout runs tick again in deleting mode, so the full word stays
displayed for 2000 ms before the first deletion; a deletion reaching
the empty string advances the word index and returns to typing speed. -/
def typingStep (words : List String) (s : TypingState) : TickOut :=
  let word := words.getD s.wordIdx ""
  if !s.deleting then
    let c := s.charIdx + 1
    if c = word.length then
      { display := word.take c,
        next := { wordIdx := s.wordIdx, charIdx := c, deleting := true },
        delay := 2000 }
    else
      { display := word.take c,
        next := { wordIdx := s.wordIdx, charIdx := c, deleting := false },
        delay := 95 }
  else
    let c := s.charIdx - 1
    if c = 0 then
      { display := word.take c,
        next := { wordIdx := (s.wordIdx + 1) % words.length, charIdx := 0,
                  deleting := false },
        delay := 95 }
    else
      { display := word.take c,
        next := { wordIdx := s.wordIdx, charIdx := c, deleting := true },
        delay := 55 }

/-- Initial typing state: first word, no characters typed. -/
def typingInit : TypingState :=
  { wordIdx := 0, charIdx := 0, deleting := false }

/-- State before the n-th tick. -/
def typingState (words : List String) (n : Nat) : TypingState :=
  (fun s => (typingStep words s).next)^[n] typingInit

/-- Text displayed by the n-th tick. -/
def typingDisplay (words : List String) (n : Nat) : String :=
  (typingStep words (typingState words n)).display

/-- Delay between the n-th display change and the next one. -/
def typingDelay (words : List String) (n : Nat) : Nat :=
  (typingStep words (typingState words n)).delay

/- ### Mobile menu state (initHamburger lines 130-153, resize handler
lines 463-474)

The relevant DOM state is the "open" class on the menu and the button,
the aria-expanded attribute on the button, and document.body inline
overflow. -/

/-- DOM state touched by the hamburger, the mobile links and the resize
handler. -/
structure MenuState where
  menuOpen : Bool
  btnOpen : Bool
  ariaExpanded : String
  bodyOverflow : String
deriving DecidableEq, Repr

/-- Hamburger button click: toggle "open" on menu and button, set
aria-expanded to the string of the new state, lock or unlock body
scroll. -/
def hamburgerClick (s : MenuState) : MenuState :=
  let isOpen := !s.menuOpen
  { menuOpen := isOpen
    btnOpen := isOpen
    ariaExpanded := if isOpen then "true" else "false"
    bodyOverflow := if isOpen then "hidden" else "" }

/-- Mobile link click: close the menu, set aria-expanded to "false",
unlock body scroll. -/
def mobileLinkClick (s : MenuState) : MenuState :=
  { menuOpen := false, btnOpen := false, ariaExpanded := "false",
    bodyOverflow := "" }

/-- Debounced resize handler body: when the viewport is wider than 768
and the menu is open, remove "open" from menu and button and clear the
body overflow; aria-expanded is not touched. -/
def resizeHandler (innerWidth : Nat) (s : MenuState) : MenuState :=
  if innerWidth > 768 && s.menuOpen then
    { s with menuOpen := false, btnOpen := false, bodyOverflow := "" }
  else s

end Portfolio

namespace Portfolio

/-- C8: for a skill-fill element whose data-width attribute is absent or
empty, the observer writes the width style "80%" (the default "80" with
"%" appended); for a non-empty attribute w it writes w ++ "%". -/
theorem skillWidth_default_and_value :
    skillWidth none = "80%" ∧ skillWidth (some "") = "80%" ∧
      ∀ w : String, w ≠ "" → skillWidth (some w) = w ++ "%" := by
  refine ⟨rfl, rfl, fun w hw => ?_⟩
  simp [skillWidth, hw]

/-- Witness for C8 at the concrete attribute value "90". -/
theorem skillWidth_default_and_value_witness :
    ("90" : String) ≠ "" ∧ skillWidth (some "90") = "90" ++ "%" :=
  ⟨by decide, skillWidth_default_and_value.2.2 "90" (by decide)⟩

/-- C9: for a counter element whose text has no digits or parses to 0,
the callback returns before starting the timer and before unobserve:
the text is unchanged, the element stays observed, and any number of
later intersections still applies no effect. -/
theorem counterCallback_falsy_target_noop (text : String)
    (h : counterParse text = none ∨ counterParse text = some 0) :
    counterCallback text =
        { timerStarted := false, unobserved := false, finalText := text } ∧
      ∀ events : List Bool, counterObsRun 0 events = obsInit := by
  constructor
  · rcases h with h | h <;> simp [counterCallback, h]
  · intro events
    suffices hgen : ∀ l : List Bool, ∀ s : ObsState,
        l.foldl (counterObsStep 0) s = s by
      exact hgen events obsInit
    intro l
    induction l with
    | nil => intro s; rfl
    | cons b bs ih =>
      intro s
      simp only [List.foldl_cons, counterObsStep]
      cases b <;> cases hs : s.observed <;> simp [ih]

/-- Witness for C9 at the concrete text "abc" (no digits). -/
theorem counterCallback_falsy_target_noop_witness :
    (counterParse "abc" = none ∨ counterParse "abc" = some 0) ∧
      (counterCallback "abc" =
          { timerStarted := false, unobserved := false, finalText := "abc" } ∧
        ∀ events : List Bool, counterObsRun 0 events = obsInit) :=
  ⟨Or.inl (by decide), counterCallback_falsy_target_noop "abc" (Or.inl (by decide))⟩

/-- Helper invariant for single-fire observers: starting from any state
in which an observed element has no triggers yet, the trigger count
never exceeds one. -/
theorem singleFire_invariant (events : List Bool) :
    ∀ s : ObsState, s.triggers ≤ 1 → (s.observed = true → s.triggers = 0) →
      (events.foldl singleFireStep s).triggers ≤ 1 ∧
        ((events.foldl singleFireStep s).observed = true →
          (events.foldl singleFireStep s).triggers = 0) := by
  induction events with
  | nil => intro s h1 h2; exact ⟨h1, h2⟩
  | cons b bs ih =>
    intro s h1 h2
    simp only [List.foldl_cons, singleFireStep]
    by_cases hb : (b && s.observed) = true
    · rw [if_pos hb]
      have hobs : s.observed = true := by
        have hb2 := hb
        simp only [Bool.and_eq_true] at hb2
        exact hb2.2
      exact ih _ (by simp [h2 hobs]) (by simp)
    · rw [if_neg hb]; exact ih s h1 h2

/-- Helper: when the parsed target is nonzero, the counter observer
step coincides with the reveal/skill-bar single-fire step. -/
theorem counterObsStep_eq_singleFireStep (endVal : Nat) (h : endVal ≠ 0) :
    counterObsStep endVal = singleFireStep := by
  funext s b
  simp [counterObsStep, singleFireStep, h]

/-- Helper: an element already unobserved stays unobserved: no further
entries are delivered for it and the step leaves it untouched. -/
theorem singleFire_stays_unobserved (events : List Bool) :
    ∀ s : ObsState, s.observed = false →
      (events.foldl singleFireStep s).observed = false := by
  induction events with
  | nil => intro s hs; exact hs
  | cons b bs ih =>
    intro s hs
    simp only [List.foldl_cons, singleFireStep, hs, Bool.and_false]
    exact ih s hs

/-- Helper: a single-fire observer that ever receives an intersecting
entry ends unobserved. -/
theorem singleFire_unobserved (events : List Bool) :
    ∀ s : ObsState, true ∈ events →
      (events.foldl singleFireStep s).observed = false := by
  induction events with
  | nil => intro s h; cases h
  | cons b bs ih =>
    intro s h
    simp only [List.foldl_cons]
    rcases List.mem_cons.mp h with hb | hbs
    · subst hb
      cases hobs : s.observed
      · exact singleFire_stays_unobserved bs _ (by simp [singleFireStep, hobs])
      · exact singleFire_stays_unobserved bs _ (by simp [singleFireStep, hobs])
    · exact ih _ hbs

/-- C7 counterexample: a counter element whose parsed target is 0
receives an intersection entry with isIntersecting true, yet is NOT
unobserved afterwards (the early return skips unobserve), contradicting
the claim that every watched element is unobserved once its callback
fires with isIntersecting true.  No effect is applied either. -/
theorem counterObs_zero_target_stays_observed :
    (counterObsRun 0 [true]).observed = true ∧
      (counterObsRun 0 [true]).triggers = 0 := by
  decide

/-- C7 amended: for the reveal and skill-bar observers, an intersecting
entry always unobserves the element; for the counter observer this
holds whenever the parsed target is nonzero; in every case -- zero
target included -- the effect is applied at most once per element over
any sequence of viewport entries and exits. -/
theorem observers_single_fire (events : List Bool) (endVal : Nat)
    (hmem : true ∈ events) (hnz : endVal ≠ 0) :
    (singleFireRun events).triggers ≤ 1 ∧
      (singleFireRun events).observed = false ∧
      (counterObsRun endVal events).triggers ≤ 1 ∧
      (counterObsRun endVal events).observed = false ∧
      ∀ evts : List Bool, (counterObsRun 0 evts).triggers = 0 := by
  have h1 := singleFire_invariant events obsInit (by simp [obsInit]) (by simp [obsInit])
  have h2 := singleFire_unobserved events obsInit hmem
  have heq : counterObsRun endVal events = singleFireRun events := by
    unfold counterObsRun singleFireRun
    rw [counterObsStep_eq_singleFireStep endVal hnz]
  refine ⟨h1.1, h2, heq ▸ h1.1, heq ▸ h2, fun evts => ?_⟩
  suffices hgen : ∀ l : List Bool, ∀ s : ObsState,
      l.foldl (counterObsStep 0) s = s by
    simp [counterObsRun, hgen, obsInit]
  intro l
  induction l with
  | nil => intro s; rfl
  | cons b bs ihl =>
    intro s
    simp only [List.foldl_cons, counterObsStep]
    cases b <;> cases hs : s.observed <;> simp [ihl]

/-- Witness for C7 at the concrete event list with one intersecting
entry and target 5. -/
theorem observers_single_fire_witness :
    (true ∈ [true, false, true]) ∧ (5 : Nat) ≠ 0 ∧
      ((singleFireRun [true, false, true]).triggers ≤ 1 ∧
        (singleFireRun [true, false, true]).observed = false ∧
        (counterObsRun 5 [true, false, true]).triggers ≤ 1 ∧
        (counterObsRun 5 [true, false, true]).observed = false ∧
        ∀ evts : List Bool, (counterObsRun 0 evts).triggers = 0) :=
  ⟨by decide, by decide,
    observers_single_fire [true, false, true] 5 (by decide) (by decide)⟩

/-- C10: when the debounced resize handler fires with innerWidth above
768 and the menu open, it removes "open" from menu and button and
restores body overflow, but leaves aria-expanded unchanged, unlike the
hamburger-close and mobile-link paths which set it to "false". -/
theorem resizeHandler_leaves_aria (w : Nat) (s : MenuState)
    (hw : w > 768) (hopen : s.menuOpen = true) :
    resizeHandler w s =
        { menuOpen := false, btnOpen := false,
          ariaExpanded := s.ariaExpanded, bodyOverflow := "" } ∧
      (s.ariaExpanded = "true" →
        (resizeHandler w s).ariaExpanded = "true") ∧
      (hamburgerClick s).ariaExpanded = "false" ∧
      (mobileLinkClick s).ariaExpanded = "false" := by
  have hcond : (w > 768 && s.menuOpen) = true := by
    simp [hopen, hw]
  refine ⟨?_, ?_, ?_, rfl⟩
  · simp [resizeHandler, hcond]
  · intro ha
    simp [resizeHandler, hcond, ha]
  · simp [hamburgerClick, hopen]

/-- Witness for C10 at innerWidth 1024 on an open menu whose button
still has aria-expanded "true". -/
theorem resizeHandler_leaves_aria_witness :
    (1024 : Nat) > 768 ∧
      (MenuState.menuOpen
        { menuOpen := true, btnOpen := true, ariaExpanded := "true",
          bodyOverflow := "hidden" } = true) ∧
      (resizeHandler 1024
          { menuOpen := true, btnOpen := true, ariaExpanded := "true",
            bodyOverflow := "hidden" } =
          { menuOpen := false, btnOpen := false, ariaExpanded := "true",
            bodyOverflow := "" } ∧
        (("true" : String) = "true" →
          (resizeHandler 1024
            { menuOpen := true, btnOpen := true, ariaExpanded := "true",
              bodyOverflow := "hidden" }).ariaExpanded = "true") ∧
        (hamburgerClick
          { menuOpen := true, btnOpen := true, ariaExpanded := "true",
            bodyOverflow := "hidden" }).ariaExpanded = "false" ∧
        (mobileLinkClick
          { menuOpen := true, btnOpen := true, ariaExpanded := "true",
            bodyOverflow := "hidden" }).ariaExpanded = "false") :=
  ⟨by decide, by decide,
    resizeHandler_leaves_aria 1024
      { menuOpen := true, btnOpen := true, ariaExpanded := "true",
        bodyOverflow := "hidden" } (by decide) (by decide)⟩

/-- C2: when every pair of consecutive invocations of the debounce
wrapper is less than delay apart, exactly one underlying call is made:
it runs delay ms after the last invocation, with the arguments of the
last invocation (every earlier timer is cancelled by the next
invocation). -/
theorem debounce_single_fire {α : Type} (delay : Nat)
    (invs : List (Nat × α)) (t : Nat) (a : α)
    (hgaps : gapsWithin delay invs = true)
    (hlast : invs.getLast? = some (t, a)) :
    debounceFires delay invs = [(t + delay, a)] := by
  induction invs with
  | nil => simp at hlast
  | cons p rest ih =>
    cases rest with
    | nil =>
      obtain ⟨tp, ap⟩ := p
      simp only [List.getLast?_singleton, Option.some.injEq] at hlast
      rw [debounceFires]
      rw [Prod.mk.injEq] at hlast
      rw [hlast.1, hlast.2]
    | cons q rest2 =>
      obtain ⟨tp, ap⟩ := p
      obtain ⟨tq, aq⟩ := q
      rw [debounceFires]
      simp only [gapsWithin, Bool.and_eq_true, decide_eq_true_eq] at hgaps
      rw [if_pos hgaps.1]
      have hlast2 : ((tq, aq) :: rest2).getLast? = some (t, a) := by
        rw [← hlast]
        exact List.getLast?_cons_cons.symm
      exact ih hgaps.2 hlast2

/-- Helper: for the target 42 the step is 2 and the value after k ticks
is min (2 k) 42. -/
theorem counterIter_42 (k : Nat) : counterIter 42 k = min (2 * k) 42 := by
  induction k with
  | zero => rfl
  | succ k ih =>
    rw [counterIter, ih]
    have hstep : counterStepSize 42 = 2 := rfl
    rw [hstep]
    omega

/-- C3: for target 42 the step is ceil(42/35) = 2 and the displayed
value strictly increases by 2 per tick, one tick every 38 ms, reaching
exactly 42 at tick 21 and never exceeding it; in general the step is
the ceiling of target/35, the value is capped at the target by the min,
and the non-digit suffix is appended to every displayed value. -/
theorem counter_animation_42 :
    counterStepSize 42 = 2 ∧
      (∀ k, k < 21 → counterIter 42 (k + 1) = counterIter 42 k + 2) ∧
      counterIter 42 21 = 42 ∧
      (∀ k, counterIter 42 k ≤ 42) ∧
      (∀ k, counterTickTime (k + 1) = counterTickTime k + 38) ∧
      (∀ endVal, 0 < endVal → endVal ≤ 35 * counterStepSize endVal ∧
        35 * (counterStepSize endVal - 1) < endVal) ∧
      (∀ endVal k, counterIter endVal k ≤ endVal) ∧
      (∀ endVal suffix k, counterDisplay endVal suffix k =
        toString (counterIter endVal k) ++ suffix) := by
  refine ⟨rfl, ?_, ?_, ?_, ?_, ?_, ?_, fun _ _ _ => rfl⟩
  · intro k hk
    rw [counterIter_42, counterIter_42]
    omega
  · rw [counterIter_42]
    omega
  · intro k
    rw [counterIter_42]
    omega
  · intro k
    simp [counterTickTime]
    ring
  · intro endVal h
    unfold counterStepSize
    omega
  · intro endVal k
    cases k with
    | zero => exact Nat.zero_le _
    | succ k => exact Nat.min_le_right _ _

/-- Witness for C3 at tick 3 and target 42. -/
theorem counter_animation_42_witness :
    (3 : Nat) < 21 ∧ (0 : Nat) < 42 ∧
      counterIter 42 (3 + 1) = counterIter 42 3 + 2 ∧
      (42 ≤ 35 * counterStepSize 42 ∧ 35 * (counterStepSize 42 - 1) < 42) :=
  ⟨by decide, by decide, counter_animation_42.2.1 3 (by decide),
    counter_animation_42.2.2.2.2.2.1 42 (by decide)⟩

/- Sanity checks of the embedded email regex on the examples named in
the specification and on boundary shapes. -/
example : emailRxTest "foo@bar" = false := by decide
example : emailRxTest "foo@bar.com" = true := by decide
example : emailRxTest "a@b.c" = true := by decide
example : emailRxTest "a@b.c.d" = true := by decide
example : emailRxTest "a@.c" = false := by decide
example : emailRxTest "a@b." = false := by decide
example : emailRxTest "a@@b.c" = false := by decide
example : emailRxTest "a b@c.d" = false := by decide
example : emailRxTest "@b.c" = false := by decide
example : emailRxTest "" = false := by decide
example : emailRxTest ("a@b" ++ String.mk [Char.ofNat 0xa0] ++ ".c") = false := by decide
example : emailRxTest ("a@b" ++ String.mk [Char.ofNat 0x2028] ++ ".c") = false := by decide
example : jsTrim (String.mk [Char.ofNat 0xb]) = "" := by decide
example : jsTrim (String.mk [Char.ofNat 0xa0, Char.ofNat 0x2003] ++ "hi" ++
    String.mk [Char.ofNat 0x3000]) = "hi" := by decide
example : (submitHandler
    { requiredVals := [String.mk [Char.ofNat 0xb]], emailPresent := true,
      emailVal := "foo@bar.com" }).sendStarted = false := by decide
/-- C4: with the email element present, the simulated send starts if
and only if every required field has a non-empty trimmed value and the
email value passes the regex; an empty required field is marked invalid
and blocks the send; when only the email format is invalid, the email
field is marked and focused and the send is blocked. -/
theorem contact_form_send_iff_valid (inp : ContactInput)
    (hep : inp.emailPresent = true) :
    ((submitHandler inp).sendStarted = true ↔
      ((∀ v ∈ inp.requiredVals, jsTrim v ≠ "") ∧
        emailRxTest inp.emailVal = true)) ∧
      ((submitHandler inp).requiredMarked =
        inp.requiredVals.map (fun v => decide (jsTrim v = ""))) ∧
      ((∀ v ∈ inp.requiredVals, jsTrim v ≠ "") →
        emailRxTest inp.emailVal = false →
        submitHandler inp =
          { sendStarted := false,
            requiredMarked :=
              inp.requiredVals.map (fun v => decide (jsTrim v = "")),
            emailMarked := true, emailFocused := true }) ∧
      (∀ v ∈ inp.requiredVals, jsTrim v = "" →
        (submitHandler inp).sendStarted = false) := by
  by_cases hv : ∀ v ∈ inp.requiredVals, jsTrim v ≠ ""
  · have hvb : (inp.requiredVals.all fun v => !decide (jsTrim v = "")) = true := by
      simp only [List.all_eq_true]
      intro v hm
      simpa using hv v hm
    cases hrx : emailRxTest inp.emailVal
    · have hout : submitHandler inp =
          { sendStarted := false,
            requiredMarked :=
              inp.requiredVals.map (fun v => decide (jsTrim v = "")),
            emailMarked := true, emailFocused := true } := by
        simp [submitHandler, hvb, hep, hrx]
      refine ⟨?_, ?_, ?_, ?_⟩
      · rw [hout]
        simp [hrx]
      · rw [hout]
      · intro _ _
        exact hout
      · intro v hm he
        exact absurd he (hv v hm)
    · have hout : submitHandler inp =
          { sendStarted := true,
            requiredMarked :=
              inp.requiredVals.map (fun v => decide (jsTrim v = "")),
            emailMarked := false, emailFocused := false } := by
        simp [submitHandler, hvb, hep, hrx]
      refine ⟨?_, ?_, ?_, ?_⟩
      · rw [hout]
        exact iff_of_true rfl ⟨hv, rfl⟩
      · rw [hout]
      · intro _ hfalse
        cases hfalse
      · intro v hm he
        exact absurd he (hv v hm)
  · have hvb : (inp.requiredVals.all fun v => !decide (jsTrim v = "")) = false := by
      apply Bool.eq_false_iff.mpr
      intro hall
      apply hv
      intro v hm
      have hvone := List.all_eq_true.mp hall v hm
      simpa using hvone
    have hout : submitHandler inp =
        { sendStarted := false,
          requiredMarked :=
            inp.requiredVals.map (fun v => decide (jsTrim v = "")),
          emailMarked := false, emailFocused := false } := by
      simp [submitHandler, hvb]
    refine ⟨?_, ?_, ?_, ?_⟩
    · rw [hout]
      simp [hv]
    · rw [hout]
    · intro hall _
      exact absurd hall hv
    · intro v hm he
      rw [hout]

/-- Witness for C4 at a concrete fully valid submission. -/
theorem contact_form_send_iff_valid_witness :
    (ContactInput.emailPresent
        { requiredVals := ["John", "hello there"], emailPresent := true,
          emailVal := "foo@bar.com" } = true) ∧
      ((submitHandler
          { requiredVals := ["John", "hello there"], emailPresent := true,
            emailVal := "foo@bar.com" }).sendStarted = true ↔
        ((∀ v ∈ ["John", "hello there"], jsTrim v ≠ "") ∧
          emailRxTest "foo@bar.com" = true)) ∧
      ((submitHandler
          { requiredVals := ["John", "hello there"], emailPresent := true,
            emailVal := "foo@bar.com" }).requiredMarked =
        (["John", "hello there"] : List String).map
          (fun v => decide (jsTrim v = ""))) ∧
      ((∀ v ∈ ["John", "hello there"], jsTrim v ≠ "") →
        emailRxTest "foo@bar.com" = false →
        submitHandler
            { requiredVals := ["John", "hello there"], emailPresent := true,
              emailVal := "foo@bar.com" } =
          { sendStarted := false,
            requiredMarked :=
              (["John", "hello there"] : List String).map
                (fun v => decide (jsTrim v = "")),
            emailMarked := true, emailFocused := true }) ∧
      (∀ v ∈ ["John", "hello there"], jsTrim v = "" →
        (submitHandler
          { requiredVals := ["John", "hello there"], emailPresent := true,
            emailVal := "foo@bar.com" }).sendStarted = false) :=
  ⟨rfl,
    contact_form_send_iff_valid
      { requiredVals := ["John", "hello there"], emailPresent := true,
        emailVal := "foo@bar.com" } rfl⟩

/-- C5: on a fully valid submission at t0 the button is disabled with
the sending label immediately and until the 1800 ms timer fires; from
t0 + 1800 the form is reset, the button re-enabled with its original
label and the success indicator shown; exactly 5000 ms after being
shown, at t0 + 6800, the indicator is hidden again.  The schedule fires
at exactly t0, t0 + 1800 and t0 + 1800 + 5000. -/
theorem send_timeline (t0 t : Nat) (init : SendState) :
    (sendSchedule t0).map Prod.fst = [t0, t0 + 1800, t0 + 1800 + 5000] ∧
      (t0 ≤ t → t < t0 + 1800 →
        sendStateAt t0 init t =
          { btnDisabled := true, btnText := "Sending…",
            successShow := init.successShow,
            formWasReset := init.formWasReset }) ∧
      (t0 + 1800 ≤ t → t < t0 + 6800 →
        sendStateAt t0 init t =
          { btnDisabled := false, btnText := "Send Message",
            successShow := true, formWasReset := true }) ∧
      (t0 + 6800 ≤ t →
        sendStateAt t0 init t =
          { btnDisabled := false, btnText := "Send Message",
            successShow := false, formWasReset := true }) := by
  refine ⟨rfl, ?_, ?_, ?_⟩
  · intro h1 h2
    have c1 : decide (t0 ≤ t) = true := decide_eq_true h1
    have c2 : decide (t0 + 1800 ≤ t) = false := decide_eq_false (by omega)
    have c3 : decide (t0 + 1800 + 5000 ≤ t) = false := decide_eq_false (by omega)
    simp only [sendStateAt, sendSchedule, List.filter_cons, List.filter_nil,
      c1, c2, c3, if_true, if_false]
    rfl
  · intro h1 h2
    have c1 : decide (t0 ≤ t) = true := decide_eq_true (by omega)
    have c2 : decide (t0 + 1800 ≤ t) = true := decide_eq_true h1
    have c3 : decide (t0 + 1800 + 5000 ≤ t) = false := decide_eq_false (by omega)
    simp only [sendStateAt, sendSchedule, List.filter_cons, List.filter_nil,
      c1, c2, c3, if_true, if_false]
    rfl
  · intro h1
    have c1 : decide (t0 ≤ t) = true := decide_eq_true (by omega)
    have c2 : decide (t0 + 1800 ≤ t) = true := decide_eq_true (by omega)
    have c3 : decide (t0 + 1800 + 5000 ≤ t) = true := decide_eq_true (by omega)
    simp only [sendStateAt, sendSchedule, List.filter_cons, List.filter_nil,
      c1, c2, c3, if_true, if_false]
    rfl

/-- Witness for C5 at submission time 100 on an idle initial state,
sampled during sending, during the success display, and after it. -/
theorem send_timeline_witness :
    ((100 : Nat) ≤ 100 ∧ (100 : Nat) < 100 + 1800 ∧
      (100 : Nat) + 1800 ≤ 3000 ∧ (3000 : Nat) < 100 + 6800 ∧
      (100 : Nat) + 6800 ≤ 7000) ∧
      sendStateAt 100
          { btnDisabled := false, btnText := "Send Message",
            successShow := false, formWasReset := false } 100 =
        { btnDisabled := true, btnText := "Sending…",
          successShow := false, formWasReset := false } ∧
      sendStateAt 100
          { btnDisabled := false, btnText := "Send Message",
            successShow := false, formWasReset := false } 3000 =
        { btnDisabled := false, btnText := "Send Message",
          successShow := true, formWasReset := true } ∧
      sendStateAt 100
          { btnDisabled := false, btnText := "Send Message",
            successShow := false, formWasReset := false } 7000 =
        { btnDisabled := false, btnText := "Send Message",
          successShow := false, formWasReset := true } :=
  ⟨⟨by decide, by decide, by decide, by decide, by decide⟩,
    (send_timeline 100 100
      { btnDisabled := false, btnText := "Send Message",
        successShow := false, formWasReset := false }).2.1
      (by decide) (by decide),
    (send_timeline 100 3000
      { btnDisabled := false, btnText := "Send Message",
        successShow := false, formWasReset := false }).2.2.1
      (by decide) (by decide),
    (send_timeline 100 7000
      { btnDisabled := false, btnText := "Send Message",
        successShow := false, formWasReset := false }).2.2.2
      (by decide)⟩

/-- Helper: the section scan computes the last qualifying id, with the
accumulator as fallback when no section qualifies. -/
theorem foldl_eq_lastQualifyingId (p : Rat) (sections : List (String × Rat)) :
    ∀ a : String,
      sections.foldl (fun cur sec => if sec.2 ≤ p then sec.1 else cur) a =
        (lastQualifyingId p sections).getD a := by
  induction sections with
  | nil => intro a; rfl
  | cons x xs ihs =>
    intro a
    simp only [List.foldl_cons, lastQualifyingId]
    rw [ihs]
    cases hxs : lastQualifyingId p xs with
    | some s => rfl
    | none =>
      by_cases hx : x.2 ≤ p
      · simp [hx]
      · simp [hx]

/-- Helper: when some section qualifies, the scan ends on the id of a
qualifying section (the last one). -/
theorem lastQualifyingId_isSome (p : Rat) (sections : List (String × Rat))
    (hq : ∃ sec ∈ sections, sec.2 ≤ p) :
    ∃ id, lastQualifyingId p sections = some id := by
  induction sections with
  | nil => obtain ⟨sec, hm, _⟩ := hq; cases hm
  | cons x xs ihs =>
    simp only [lastQualifyingId]
    cases hxs : lastQualifyingId p xs with
    | some s => exact ⟨s, rfl⟩
    | none =>
      obtain ⟨sec, hm, hle⟩ := hq
      rcases List.mem_cons.mp hm with hsec | hsec
      · subst hsec
        rw [if_pos hle]
        exact ⟨sec.1, rfl⟩
      · obtain ⟨id, hid⟩ := ihs ⟨sec, hsec, hle⟩
        rw [hid] at hxs
        cases hxs

/-- Helper: counting true in the map of an equality test counts the
occurrences of the tested value. -/
theorem count_true_map_beq (l : List String) (a : String) :
    (l.map (fun x => x == a)).count true = l.count a := by
  induction l with
  | nil => rfl
  | cons x xs ihl =>
    cases hx : x == a <;>
      simp [List.count_cons, hx, ihl]

/-- Helper: concrete scroll positions used below, evaluated through the
rational arithmetic of navScrollPos. -/
theorem navScrollPos_zero : navScrollPos 0 0 = 0 := by
  simp [navScrollPos]

/-- Helper: scroll position for scrollY 200 with viewport height 0. -/
theorem navScrollPos_200 : navScrollPos 200 0 = 200 := by
  simp [navScrollPos]

/-- Helper: with one section of offset 100 and scroll position 0, the
scan keeps the empty string. -/
theorem currentSectionId_far_section :
    currentSectionId [("home", (100 : Rat))] (navScrollPos 0 0) = "" := by
  rw [navScrollPos_zero]
  simp only [currentSectionId, List.foldl_cons, List.foldl_nil]
  rw [if_neg (by decide : ¬((("home", (100 : Rat))).2 ≤ 0))]

/-- Helper: with one section of offset 50 and scroll position 200, the
scan ends on its id. -/
theorem currentSectionId_near_section :
    currentSectionId [("home", (50 : Rat))] (navScrollPos 200 0) = "home" := by
  rw [navScrollPos_200]
  simp only [currentSectionId, List.foldl_cons, List.foldl_nil]
  rw [if_pos (by decide : (("home", (50 : Rat))).2 ≤ 200)]

/-- C1 counterexample: with one section whose top offset is 100, one
nav link to it, and scroll position 0 (scrollY 0, viewport height 0),
no section qualifies, current stays the empty string, and zero links --
not exactly one -- end with the "active" class. -/
theorem nav_active_exactly_one_fails :
    activeFlags [("home", (100 : Rat))] ["#home"] 0 0 = [false] ∧
      (activeFlags [("home", (100 : Rat))] ["#home"] 0 0).count true ≠ 1 := by
  have hflags : activeFlags [("home", (100 : Rat))] ["#home"] 0 0 = [false] := by
    simp only [activeFlags, currentSectionId_far_section, List.map_cons,
      List.map_nil]
    decide
  exact ⟨hflags, by rw [hflags]; decide⟩

/-- C1 amended: when at least one section top offset is at most
scrollY + 30% of the viewport height and exactly one nav link href is
"#" ++ the id of the last such section, then exactly one link ends
active, namely that one; and unconditionally a link ends active exactly
when its href is "#" ++ the id computed by the scan. -/
theorem nav_active_link (sections : List (String × Rat))
    (links : List String) (sy vh : Rat)
    (hq : ∃ sec ∈ sections, sec.2 ≤ navScrollPos sy vh)
    (hc : links.count
      ("#" ++ currentSectionId sections (navScrollPos sy vh)) = 1) :
    (∃ id, lastQualifyingId (navScrollPos sy vh) sections = some id ∧
      currentSectionId sections (navScrollPos sy vh) = id) ∧
      (activeFlags sections links sy vh).count true = 1 ∧
      ∀ i, i < links.length →
        ((activeFlags sections links sy vh).getD i false = true ↔
          links.getD i "" =
            "#" ++ currentSectionId sections (navScrollPos sy vh)) := by
  obtain ⟨id, hid⟩ := lastQualifyingId_isSome (navScrollPos sy vh) sections hq
  refine ⟨⟨id, hid, ?_⟩, ?_, ?_⟩
  · rw [currentSectionId, foldl_eq_lastQualifyingId, hid]
    rfl
  · rw [activeFlags, count_true_map_beq]
    exact hc
  · intro i hi
    have hflag : (activeFlags sections links sy vh).getD i false =
        (links.getD i "" ==
          "#" ++ currentSectionId sections (navScrollPos sy vh)) := by
      rw [activeFlags]
      rw [List.getD_eq_getElem?_getD, List.getElem?_map,
        List.getD_eq_getElem?_getD]
      rw [List.getElem?_eq_getElem hi]
      rfl
    rw [hflag]
    exact beq_iff_eq

/-- Witness for C1 at one section with offset 50, scroll position 200,
and a link list containing its link once. -/
theorem nav_active_link_witness :
    (∃ sec ∈ [("home", (50 : Rat))], sec.2 ≤ navScrollPos 200 0) ∧
      (["#home", "#about"] : List String).count
        ("#" ++ currentSectionId [("home", (50 : Rat))]
          (navScrollPos 200 0)) = 1 ∧
      ((∃ id, lastQualifyingId (navScrollPos 200 0)
            [("home", (50 : Rat))] = some id ∧
          currentSectionId [("home", (50 : Rat))] (navScrollPos 200 0) = id) ∧
        (activeFlags [("home", (50 : Rat))] ["#home", "#about"]
          200 0).count true = 1 ∧
        ∀ i, i < (["#home", "#about"] : List String).length →
          ((activeFlags [("home", (50 : Rat))] ["#home", "#about"]
              200 0).getD i false = true ↔
            (["#home", "#about"] : List String).getD i "" =
              "#" ++ currentSectionId [("home", (50 : Rat))]
                (navScrollPos 200 0))) :=
  ⟨⟨("home", (50 : Rat)), by simp, by rw [navScrollPos_200]; decide⟩,
    by rw [currentSectionId_near_section]; decide,
    nav_active_link [("home", (50 : Rat))] ["#home", "#about"] 200 0
      ⟨("home", (50 : Rat)), by simp, by rw [navScrollPos_200]; decide⟩
      (by rw [currentSectionId_near_section]; decide)⟩

/-- C6: with word list ["AI Enthusiast"] the displayed text grows one
character per tick, every 95 ms, from "A" at tick 0 to the full string
at tick 12, stays 2000 ms at the full string, shrinks one character per
tick every 55 ms down to the empty string at tick 25, and then the
whole 26-tick cycle repeats forever; with any word list, a deletion
reaching the empty string advances the word index by one modulo the
list length and switches back to typing. -/
theorem typing_effect_cycle :
    (∀ i, i < 13 →
      typingDisplay ["AI Enthusiast"] i = "AI Enthusiast".take (i + 1)) ∧
      (∀ i, i < 12 → typingDelay ["AI Enthusiast"] i = 95) ∧
      (typingDisplay ["AI Enthusiast"] 12 = "AI Enthusiast" ∧
        typingDelay ["AI Enthusiast"] 12 = 2000) ∧
      (∀ i, 13 ≤ i → i < 26 →
        typingDisplay ["AI Enthusiast"] i = "AI Enthusiast".take (25 - i)) ∧
      (∀ i, 13 ≤ i → i < 25 → typingDelay ["AI Enthusiast"] i = 55) ∧
      (typingDisplay ["AI Enthusiast"] 25 = "" ∧
        typingDelay ["AI Enthusiast"] 25 = 95) ∧
      (∀ n, typingState ["AI Enthusiast"] (n + 26) =
        typingState ["AI Enthusiast"] n) ∧
      (∀ words : List String, ∀ s : TypingState,
        s.deleting = true → s.charIdx = 1 →
          (typingStep words s).next.wordIdx = (s.wordIdx + 1) % words.length ∧
            (typingStep words s).next.deleting = false ∧
            (typingStep words s).delay = 95) := by
  refine ⟨by decide, by decide, by decide, by decide, by decide, by decide,
    ?_, ?_⟩
  · intro n
    have h26 : typingState ["AI Enthusiast"] 26 = typingInit := by decide
    calc typingState ["AI Enthusiast"] (n + 26)
        = (fun s => (typingStep ["AI Enthusiast"] s).next)^[n]
            (typingState ["AI Enthusiast"] 26) := by
          unfold typingState
          rw [Function.iterate_add_apply]
      _ = typingState ["AI Enthusiast"] n := by rw [h26]; rfl
  · intro words s hdel hchar
    have hstep : typingStep words s =
        { display := (words.getD s.wordIdx "").take 0,
          next := { wordIdx := (s.wordIdx + 1) % words.length, charIdx := 0,
                    deleting := false },
          delay := 95 } := by
      rw [typingStep, hdel, hchar]
      rfl
    rw [hstep]
    exact ⟨rfl, rfl, rfl⟩

/-- Witness for C6: concrete ticks of the cycle and a concrete word
advance with the two-word list. -/
theorem typing_effect_cycle_witness :
    ((3 : Nat) < 13 ∧ (5 : Nat) < 12 ∧ (13 : Nat) ≤ 20 ∧ (20 : Nat) < 26 ∧
      (13 : Nat) ≤ 14 ∧ (14 : Nat) < 25 ∧
      TypingState.deleting ⟨1, 1, true⟩ = true ∧
      TypingState.charIdx ⟨1, 1, true⟩ = 1) ∧
      typingDisplay ["AI Enthusiast"] 3 = "AI Enthusiast".take 4 ∧
      typingDelay ["AI Enthusiast"] 5 = 95 ∧
      typingDisplay ["AI Enthusiast"] 20 = "AI Enthusiast".take 5 ∧
      typingDelay ["AI Enthusiast"] 14 = 55 ∧
      typingState ["AI Enthusiast"] 30 = typingState ["AI Enthusiast"] 4 ∧
      ((typingStep ["ab", "cd"] ⟨1, 1, true⟩).next.wordIdx = (1 + 1) % 2 ∧
        (typingStep ["ab", "cd"] ⟨1, 1, true⟩).next.deleting = false ∧
        (typingStep ["ab", "cd"] ⟨1, 1, true⟩).delay = 95) :=
  ⟨⟨by decide, by decide, by decide, by decide, by decide, by decide,
      rfl, rfl⟩,
    typing_effect_cycle.1 3 (by decide),
    typing_effect_cycle.2.1 5 (by decide),
    typing_effect_cycle.2.2.2.1 20 (by decide) (by decide),
    typing_effect_cycle.2.2.2.2.1 14 (by decide) (by decide),
    typing_effect_cycle.2.2.2.2.2.2.1 4,
    typing_effect_cycle.2.2.2.2.2.2.2 ["ab", "cd"] ⟨1, 1, true⟩ rfl rfl⟩

/-- Witness for C2: three invocations at 0, 60 and 110 ms with delay
100 produce exactly one call, at 210 ms, with the last arguments. -/
theorem debounce_single_fire_witness :
    gapsWithin 100 [(0, "a"), (60, "b"), (110, "c")] = true ∧
      ([(0, "a"), (60, "b"), (110, "c")] : List (Nat × String)).getLast?
        = some (110, "c") ∧
      debounceFires 100 [(0, "a"), (60, "b"), (110, "c")] = [(210, "c")] :=
  ⟨by decide, by decide, by
    have h := debounce_single_fire 100 [(0, "a"), (60, "b"), (110, "c")]
      110 "c" (by decide) (by decide)
    simpa using h⟩

end Portfolio
